import Mathlib

/-!
Verification of the check-execution and normalization engine of the
pyright-mcp repository (`src/pyright_mcp/runner.py`) against its
specification.  The Python functions are shallowly embedded as Lean
definitions: JSON values (the results of `json.loads`) are modelled by
the inductive `JValue`, Python exceptions by `Option`/`none`, and the
external world (filesystem, subprocess, interpreter state) by an explicit
environment record passed to the orchestrator.
-/

namespace PyrightMCP

/-- A JSON value as produced by Python's `json.loads`: `null`, booleans,
integers, floats (modelled exactly as rationals, since the code only
copies and converts them and never performs float arithmetic), strings,
arrays and objects (key/value lists, later key wins on duplicate). -/
inductive JValue where
  | jnull : JValue
  | jbool (b : Bool) : JValue
  | jint (n : Int) : JValue
  | jfloat (q : Rat) : JValue
  | jstr (s : String) : JValue
  | jarr (xs : List JValue) : JValue
  | jobj (fields : List (String × JValue)) : JValue
deriving Repr

/-- Python dict lookup: the last binding of a key wins (as in a dict built
from a JSON object with duplicate keys). -/
def lookupLast : List (String × JValue) → String → Option JValue
  | [], _ => none
  | (k, v) :: rest, key =>
    match lookupLast rest key with
    | some r => some r
    | none => if k = key then some v else none

/-- `key in obj` for a Python dict. -/
def JValue.hasKey : JValue → String → Bool
  | .jobj fields, key => fields.any (fun kv => kv.1 = key)
  | _, _ => false

/-- `obj.get(key)` in Python: `some (some v)` when the key is bound to `v`,
`some none` when the key is absent (Python returns `None`), and `none`
when the receiver is not a dict at all (`AttributeError`). -/
def dictGet : JValue → String → Option (Option JValue)
  | .jobj fields, key => some (lookupLast fields key)
  | _, _ => none

/-- `obj.get(key, default)`: like `dictGet` but with an explicit default. -/
def dictGetD (v : JValue) (key : String) (dflt : JValue) : Option JValue :=
  (dictGet v key).map (fun r => r.getD dflt)

/-- Python truthiness of a JSON-derived value. -/
def pyTruthy : JValue → Bool
  | .jnull => false
  | .jbool b => b
  | .jint n => n ≠ 0
  | .jfloat q => q ≠ 0
  | .jstr s => s ≠ ""
  | .jarr xs => !xs.isEmpty
  | .jobj fields => !fields.isEmpty

/-- `x or \x7b\x7d` applied to the result of a `.get` call: Python `None`
and falsy values are replaced by an empty dict. -/
def orEmptyObj : Option JValue → JValue
  | none => .jobj []
  | some v => if pyTruthy v then v else .jobj []

/-- `int(s)` for a Python string: optional surrounding whitespace, an
optional sign, then a non-empty digit run possibly containing single
underscores between digits. `none` models `ValueError`. -/
def pyIntOfString (s : String) : Option Int :=
  let cs := s.toList.dropWhile (fun c => c = ' ' ∨ c = '\t' ∨ c = '\n' ∨ c = '\r')
  let cs := (cs.reverse.dropWhile (fun c => c = ' ' ∨ c = '\t' ∨ c = '\n' ∨ c = '\r')).reverse
  let (neg, ds) :=
    match cs with
    | '-' :: rest => (true, rest)
    | '+' :: rest => (false, rest)
    | rest => (false, rest)
  let rec digits : List Char → Option Nat
    | [] => none
    | [c] => if c.isDigit then some (c.toNat - 48) else none
    | c :: '_' :: c2 :: rest =>
      if c.isDigit then
        (digits (c2 :: rest)).map (fun n => (c.toNat - 48) * 10 ^ (c2 :: rest).length + n)
      else none
    | c :: rest =>
      if c.isDigit then
        (digits rest).map (fun n => (c.toNat - 48) * 10 ^ rest.length + n)
      else none
  (digits ds).map (fun n => if neg then -(n : Int) else (n : Int))

/-- `int(x)` on a JSON-derived value: identity on ints, truncation toward
zero on floats, 0/1 on booleans, string parsing on strings; everything
else raises (`none`). -/
def pyInt : JValue → Option Int
  | .jint n => some n
  | .jfloat q => some (if q < 0 then -((-q).floor) else q.floor)
  | .jbool b => some (if b then 1 else 0)
  | .jstr s => pyIntOfString s
  | _ => none

/-- `float(x)` on a JSON-derived value (string parsing is restricted to
the simple decimal forms the code can meet; `none` models a raised
conversion error). -/
def pyFloat : JValue → Option Rat
  | .jint n => some (n : Rat)
  | .jfloat q => some q
  | .jbool b => some (if b then 1 else 0)
  | .jstr s =>
    (pyIntOfString s).map (fun n => (n : Rat))
  | _ => none

/-- Decimal rendering of a modelled float, used only inside `pyRepr`. -/
def floatRepr (q : Rat) : String :=
  if q.den = 1 then toString q.num ++ ".0" else toString q

mutual

/-- Python `repr` of a JSON-derived value (`str` falls back to this for
every non-string type). -/
def pyRepr : JValue → String
  | .jnull => "None"
  | .jbool true => "True"
  | .jbool false => "False"
  | .jint n => toString n
  | .jfloat q => floatRepr q
  | .jstr s => "'" ++ s ++ "'"
  | .jarr xs => "[" ++ String.intercalate ", " (pyReprList xs) ++ "]"
  | .jobj fields => "\x7b" ++ String.intercalate ", " (pyReprFields fields) ++ "\x7d"

/-- `repr` of each element of a Python list. -/
def pyReprList : List JValue → List String
  | [] => []
  | x :: xs => pyRepr x :: pyReprList xs

/-- `repr` of each key/value pair of a Python dict. -/
def pyReprFields : List (String × JValue) → List String
  | [] => []
  | (k, v) :: rest => ("'" ++ k ++ "': " ++ pyRepr v) :: pyReprFields rest

end

/-- Python `str` of a JSON-derived value. -/
def pyStr : JValue → String
  | .jstr s => s
  | v => pyRepr v

/-- Split a character list at `/` separators (the semantics of
`String.splitOn "/"`, stated recursively so it evaluates by reduction). -/
def splitSlash : List Char → List Char → List String
  | acc, [] => [String.mk acc.reverse]
  | acc, '/' :: rest => String.mk acc.reverse :: splitSlash [] rest
  | acc, c :: rest => splitSlash (c :: acc) rest

/-- The `/`-separated components of a path string. -/
def pathComponents (p : String) : List String := splitSlash [] p.toList

/-- Whether a POSIX path string is absolute. -/
def isAbsPath (s : String) : Bool :=
  match s.toList with
  | '/' :: _ => true
  | _ => false

/-- One step of POSIX path normalization over components: empty and `.`
components vanish, `..` pops the previous component (a no-op at the
root), anything else is appended. -/
def normParts (parts : List String) : List String :=
  parts.foldl
    (fun acc c =>
      if c = "" ∨ c = "." then acc
      else if c = ".." then acc.dropLast
      else acc ++ [c]) []

/-- Model of `str(pathlib.Path(p).resolve())` on POSIX: a relative path
is joined onto the (absolute) process working directory, then the
components are normalized; the result is always an absolute path.
Symlink resolution is not modelled (it does not affect absoluteness). -/
def resolvePath (cwd p : String) : String :=
  let full := if isAbsPath p then p else cwd ++ "/" ++ p
  "/" ++ String.intercalate "/" (normParts (pathComponents full))

/-- Model of `str(pathlib.Path(p))` on POSIX: duplicate slashes and `.`
components are dropped (`..` is kept), the empty path prints as `.`. -/
def pathStr (p : String) : String :=
  let comps := (pathComponents p).filter (fun c => c ≠ "" ∧ c ≠ ".")
  let s := (if isAbsPath p then "/" else "") ++ String.intercalate "/" comps
  if s = "" then "." else s

/-- Model of `pathlib.Path(p).name`: the last component of the path. -/
def pathName (p : String) : String :=
  (((pathComponents p).filter (fun c => c ≠ "" ∧ c ≠ ".")).getLast?).getD ""

/-- Model of `p.relative_to(root)` on two resolved absolute paths:
`none` models the `ValueError` raised when `root` is not a prefix. -/
def relativeTo (p root : String) : Option String :=
  let pp := (pathComponents p).filter (fun c => c ≠ "")
  let rp := (pathComponents root).filter (fun c => c ≠ "")
  if rp.isPrefixOf pp then
    let rest := pp.drop rp.length
    some (if rest.isEmpty then "." else String.intercalate "/" rest)
  else none

/-- Items of a `[...]` character class in a shell glob pattern: collects
the ranges and returns the text after the closing `]`; `none` when the
class is unterminated (an unterminated `[` is a literal in `fnmatch`). -/
def parseClassItems : List Char → List (Char × Char) → Option (List (Char × Char) × List Char)
  | [], _ => none
  | ']' :: rest, acc => some (acc, rest)
  | c :: '-' :: d :: rest, acc =>
    if d = ']' then parseClassItems (']' :: rest) (acc ++ [(c, c), ('-', '-')])
    else parseClassItems rest (acc ++ [(c, d)])
  | c :: rest, acc => parseClassItems rest (acc ++ [(c, c)])

theorem parseClassItems_length_lt :
    ∀ (l : List Char) (acc : List (Char × Char)) rs rest,
      parseClassItems l acc = some (rs, rest) → rest.length < l.length := by
  intro l acc rs rest
  induction l, acc using parseClassItems.induct generalizing rs rest with
  | case1 acc0 => simp [parseClassItems]
  | case2 rest0 acc0 =>
    intro h
    simp [parseClassItems] at h
    simp [h.2]
  | case3 c rest0 acc0 hc ih =>
    intro h
    simp only [parseClassItems, hc, reduceIte] at h
    simp only [Option.some.injEq, Prod.mk.injEq] at h
    simp [← h.2]
    omega
  | case4 c d rest0 acc0 hc hd ih =>
    intro h
    simp only [parseClassItems, hd, reduceIte] at h
    have := ih _ _ h
    simp at this ⊢
    omega
  | case5 c rest0 acc0 hc hshape ih =>
    intro h
    simp only [parseClassItems] at h
    have := ih _ _ h
    simp at this ⊢
    omega

def parseClass (l : List Char) : Option (Bool × List (Char × Char) × List Char) :=
  match l with
  | '!' :: ']' :: rest =>
    (parseClassItems rest [((']' : Char), (']' : Char))]).map (fun p => (true, p.1, p.2))
  | '!' :: rest => (parseClassItems rest []).map (fun p => (true, p.1, p.2))
  | ']' :: rest =>
    (parseClassItems rest [((']' : Char), (']' : Char))]).map (fun p => (false, p.1, p.2))
  | rest => (parseClassItems rest []).map (fun p => (false, p.1, p.2))

theorem parseClass_length_lt (l : List Char) (neg : Bool) (rs : List (Char × Char))
    (rest : List Char) (h : parseClass l = some (neg, rs, rest)) :
    rest.length < l.length := by
  unfold parseClass at h
  split at h <;>
  · rw [Option.map_eq_some'] at h
    obtain ⟨p, hp, he⟩ := h
    have := parseClassItems_length_lt _ _ _ _ hp
    simp only [Prod.mk.injEq] at he
    simp [← he.2.2] at this ⊢
    omega

def classRest (ps : List Char) : List Char :=
  match parseClass ps with
  | some (_, _, rest) => rest
  | none => ps

theorem classRest_length_le (ps : List Char) : (classRest ps).length ≤ ps.length := by
  unfold classRest
  split
  · next neg rs rest h => exact Nat.le_of_lt (parseClass_length_lt _ _ _ _ h)
  · exact Nat.le_refl _

def globMatch : List Char → List Char → Bool
  | [], [] => true
  | [], _ :: _ => false
  | '*' :: ps, [] => globMatch ps []
  | '*' :: ps, c :: cs => globMatch ps (c :: cs) || globMatch ('*' :: ps) cs
  | '?' :: ps, _ :: cs => globMatch ps cs
  | '?' :: _, [] => false
  | '[' :: ps, s =>
    match parseClass ps, s with
    | none, '[' :: cs => globMatch ps cs
    | none, _ => false
    | some _, [] => false
    | some (neg, rs, _), c :: cs =>
      ((rs.any (fun r => r.1 ≤ c ∧ c ≤ r.2)) != neg) && globMatch (classRest ps) cs
  | p :: ps, c :: cs => (p = c) && globMatch ps cs
  | _ :: _, [] => false
termination_by pat s => (pat.length, s.length)
decreasing_by
  all_goals simp_wf
  all_goals
    first
    | (apply Prod.Lex.right; omega)
    | (apply Prod.Lex.left; omega)
    | (apply Prod.Lex.left
       have := classRest_length_le ps
       omega)

/-- Model of `fnmatch.fnmatch(name, pat)` on POSIX (no case folding):
`*` matches any run of characters, `?` one character, `[...]` a
character class with `!` negation and `a-z` ranges. -/
def fnmatch (name pat : String) : Bool :=
  globMatch pat.toList name.toList

/-- The `SEVERITY_LEVEL` table of `runner.py`; `none` models the
`KeyError` raised on a key outside the table. -/
def SEVERITY_LEVEL : String → Option Int
  | "information" => some 1
  | "warning" => some 2
  | "error" => some 3
  | _ => none

/-- The `RangePos` TypedDict: a zero-based line/character position. -/
structure RangePos where
  line : Int
  character : Int
deriving DecidableEq, Repr

/-- The `Range` TypedDict: start and end positions. -/
structure Range where
  start : RangePos
  «end» : RangePos
deriving DecidableEq, Repr

/-- The `DiagnosticOut` TypedDict: one normalized diagnostic. -/
structure DiagnosticOut where
  file : String
  range : Range
  severity : String
  severity_level : Int
  message : String
  code : Option String
  rule : Option String
deriving DecidableEq, Repr

/-- The `SummaryOut` TypedDict: the five passthrough summary fields. -/
structure SummaryOut where
  files_analyzed : Int
  error_count : Int
  warning_count : Int
  information_count : Int
  time_sec : Rat
deriving DecidableEq, Repr

/-- The `sev` local of `_normalize_diag`:
`sev_raw if sev_raw in ("information", "warning", "error") else
"information"`. -/
def sevString (sevRaw : JValue) : String :=
  match sevRaw with
  | .jstr s => if s = "information" ∨ s = "warning" ∨ s = "error" then s else "information"
  | _ => "information"

/-- The `rule` entry of `_normalize_diag`:
`str(rule_val) if isinstance(rule_val, str) else None`. -/
def ruleString : Option JValue → Option String
  | some (.jstr s) => some s
  | _ => none

/-- `_normalize_diag` of `runner.py`, over a raw diagnostic JSON value and
the process working directory used by `Path.resolve`.  `none` models an
uncaught exception (`AttributeError` on a non-dict receiver of `.get`,
`ValueError`/`TypeError` from `int(...)`). -/
def normalize_diag (cwd : String) (d : JValue) : Option DiagnosticOut :=
  match dictGetD d "file" (.jstr ""), dictGetD d "severity" (.jstr "information") with
  | some fileRaw, some sevRaw =>
    let sev : String := sevString sevRaw
    (match dictGet d "range" with
     | none => none
     | some rngOpt =>
      let rng := orEmptyObj rngOpt
      match dictGet rng "start", dictGet rng "end" with
      | some startOpt, some endOpt =>
        let startv := orEmptyObj startOpt
        let endv := orEmptyObj endOpt
        (match dictGetD startv "line" (.jint 0), dictGetD startv "character" (.jint 0),
              dictGetD endv "line" (.jint 0), dictGetD endv "character" (.jint 0) with
         | some slv, some scv, some elv, some ecv =>
          (match pyInt slv, pyInt scv, pyInt elv, pyInt ecv with
           | some sline, some schar, some eline, some echar =>
            (match SEVERITY_LEVEL sev, dictGetD d "message" (.jstr ""), dictGet d "rule" with
             | some lvl, some msgRaw, some ruleVal =>
              let rule : Option String := ruleString ruleVal
              some {
                file := resolvePath cwd (pyStr fileRaw)
                range := {
                  start := { line := sline, character := schar }
                  «end» := { line := eline, character := echar } }
                severity := sev
                severity_level := lvl
                message := pyStr msgRaw
                code := rule
                rule := rule }
             | _, _, _ => none)
           | _, _, _, _ => none)
         | _, _, _, _ => none)
      | _, _ => none)
  | _, _ => none

/-- The inline threshold table of `_compute_threshold_ok`
(`\x7b"information": 1, "warning": 2, "error": 3\x7d[threshold]`);
`none` models the `KeyError` on any other threshold string. -/
def FAIL_ON_LEVEL : String → Option Int
  | "information" => some 1
  | "warning" => some 2
  | "error" => some 3
  | _ => none

/-- The severity scan of `_compute_threshold_ok`: running maximum with an
early `break` as soon as the threshold value is reached. -/
def scanMaxSev (thVal : Int) : Int → List DiagnosticOut → Int
  | acc, [] => acc
  | acc, d :: rest =>
    let m := max acc d.severity_level
    if thVal ≤ m then m else scanMaxSev thVal m rest

/-- The f-string of `_compute_threshold_ok`'s failure reason. -/
def thresholdMsg (threshold : String) (maxSev : Int) : String :=
  "fail_on_severity '" ++ threshold ++ "' breached (max_severity_level=" ++
    toString maxSev ++ ")."

/-- `_compute_threshold_ok` of `runner.py`.  `none` models the `KeyError`
raised when the threshold string is not one of the four literals. -/
def compute_threshold_ok (diags : List DiagnosticOut) (threshold : String) :
    Option (Bool × Option String) :=
  if threshold = "none" then some (true, none)
  else
    match FAIL_ON_LEVEL threshold with
    | none => none
    | some thVal =>
      let maxSev := scanMaxSev thVal 0 diags
      if thVal ≤ maxSev ∧ 0 < maxSev then
        some (false, some (thresholdMsg threshold maxSev))
      else
        some (true, none)

/-- The maximum severity level across all diagnostics, as the spec words
it ("compute the maximum severity level across all diagnostics");
used to compare the claimed reason text with the implemented one. -/
def maxSeverityLevel (diags : List DiagnosticOut) : Int :=
  diags.foldl (fun acc d => max acc d.severity_level) 0

/-- The sort key comparison used at the end of `run_check`: ascending
lexicographic order on the tuple `(file, start line, start character)`
exactly as Python compares the sort keys. -/
def diagKeyLE (a b : DiagnosticOut) : Bool :=
  decide (a.file < b.file) ||
  (decide (a.file = b.file) &&
    (decide (a.range.start.line < b.range.start.line) ||
     (decide (a.range.start.line = b.range.start.line) &&
      decide (a.range.start.character ≤ b.range.start.character))))

/-- `diagKeyLE` as a relation, for use with `List.insertionSort`. -/
def diagLE (a b : DiagnosticOut) : Prop := diagKeyLE a b = true

instance : DecidableRel diagLE :=
  fun a b => inferInstanceAs (Decidable (diagKeyLE a b = true))

/-- `diags.sort(key=lambda d: (d.file, d.range.start.line,
d.range.start.character))`: Python's sort is a stable sort by this key;
it is modelled by the stable `List.insertionSort` (stable sorts under
the same total preorder agree on every list). -/
def sortDiags (diags : List DiagnosticOut) : List DiagnosticOut :=
  diags.insertionSort diagLE

/-- JSON whitespace as accepted by Python's `json.loads`. -/
def jsonWs (c : Char) : Bool := c = ' ' ∨ c = '\t' ∨ c = '\n' ∨ c = '\r'

/-- Drop leading JSON whitespace. -/
def skipWs (l : List Char) : List Char := l.dropWhile jsonWs

/-- Value of a hex digit. -/
def hexVal (c : Char) : Option Nat :=
  if '0' ≤ c ∧ c ≤ '9' then some (c.toNat - 48)
  else if 'a' ≤ c ∧ c ≤ 'f' then some (c.toNat - 87)
  else if 'A' ≤ c ∧ c ≤ 'F' then some (c.toNat - 55)
  else none

/-- Parse the body of a JSON string (after the opening quote): ordinary
characters (raw control characters are rejected, as in strict-mode
`json.loads`) and the standard escapes.  Lone `\u` surrogates, which
Lean's `Char` cannot carry, are mapped through `Char.ofNat`'s fallback. -/
def parseJString : List Char → List Char → Option (String × List Char)
  | acc, '"' :: rest => some (String.mk acc.reverse, rest)
  | acc, '\\' :: '"' :: rest => parseJString ('"' :: acc) rest
  | acc, '\\' :: '\\' :: rest => parseJString ('\\' :: acc) rest
  | acc, '\\' :: '/' :: rest => parseJString ('/' :: acc) rest
  | acc, '\\' :: 'b' :: rest => parseJString (Char.ofNat 8 :: acc) rest
  | acc, '\\' :: 'f' :: rest => parseJString (Char.ofNat 12 :: acc) rest
  | acc, '\\' :: 'n' :: rest => parseJString ('\n' :: acc) rest
  | acc, '\\' :: 'r' :: rest => parseJString ('\r' :: acc) rest
  | acc, '\\' :: 't' :: rest => parseJString ('\t' :: acc) rest
  | acc, '\\' :: 'u' :: h1 :: h2 :: h3 :: h4 :: rest2 =>
    (match hexVal h1, hexVal h2, hexVal h3, hexVal h4 with
     | some v1, some v2, some v3, some v4 =>
      parseJString (Char.ofNat (((v1 * 16 + v2) * 16 + v3) * 16 + v4) :: acc) rest2
     | _, _, _, _ => none)
  | _, '\\' :: _ :: _ => none
  | _, '\\' :: [] => none
  | acc, c :: rest => if c.toNat < 32 then none else parseJString (c :: acc) rest
  | _, [] => none

/-- Numeric value of a digit run. -/
def digitsToNat (ds : List Char) : Nat :=
  ds.foldl (fun a c => a * 10 + (c.toNat - 48)) 0

/-- Parse a JSON number at the head of the input: an optional minus sign,
an integer part (`0` or a nonzero-led digit run), an optional fraction
and an optional exponent.  A number without fraction and exponent is an
`int` in Python, otherwise a `float`.  The `NaN`/`Infinity` extensions of
`json.loads`, which Pyright never emits, are not modelled. -/
def parseJNumber (l : List Char) : Option (JValue × List Char) :=
  let (neg, l1) := match l with
    | '-' :: r => (true, r)
    | _ => (false, l)
  let intPart : Option (List Char × List Char) :=
    match l1 with
    | '0' :: r => some ([('0' : Char)], r)
    | c :: _ =>
      if c.isDigit then some (l1.takeWhile Char.isDigit, l1.dropWhile Char.isDigit)
      else none
    | [] => none
  match intPart with
  | none => none
  | some (ip, r1) =>
    let (frac, r2) :=
      match r1 with
      | '.' :: d :: _ =>
        if d.isDigit then
          ((r1.drop 1).takeWhile Char.isDigit, (r1.drop 1).dropWhile Char.isDigit)
        else ([], r1)
      | _ => ([], r1)
    let (hasExp, expNeg, expDigits, r3) :=
      match r2 with
      | e :: rest =>
        if e = 'e' ∨ e = 'E' then
          match rest with
          | '+' :: d :: _ =>
            if d.isDigit then
              (true, false, (rest.drop 1).takeWhile Char.isDigit,
                (rest.drop 1).dropWhile Char.isDigit)
            else (false, false, [], r2)
          | '-' :: d :: _ =>
            if d.isDigit then
              (true, true, (rest.drop 1).takeWhile Char.isDigit,
                (rest.drop 1).dropWhile Char.isDigit)
            else (false, false, [], r2)
          | d :: _ =>
            if d.isDigit then
              (true, false, rest.takeWhile Char.isDigit, rest.dropWhile Char.isDigit)
            else (false, false, [], r2)
          | [] => (false, false, [], r2)
        else (false, false, [], r2)
      | [] => (false, false, [], r2)
    if frac.isEmpty ∧ ¬hasExp then
      let n : Int := (digitsToNat ip : Int)
      some (.jint (if neg then -n else n), r1)
    else
      let mantissa : Rat :=
        ((digitsToNat ip * 10 ^ frac.length + digitsToNat frac : Int) : Rat) /
          ((10 : Rat) ^ frac.length)
      let expVal : Int :=
        if hasExp then
          (if expNeg then -(digitsToNat expDigits : Int) else (digitsToNat expDigits : Int))
        else 0
      let q := mantissa * (10 : Rat) ^ expVal
      some (.jfloat (if neg then -q else q), r3)

mutual

/-- Parse one JSON value after skipping leading whitespace.  The fuel
argument only bounds the recursion depth; every nested call works on a
strictly shorter input, so `length + 2` fuel at top level never runs
out. -/
def parseJValue : Nat → List Char → Option (JValue × List Char)
  | 0, _ => none
  | fuel + 1, l =>
    match skipWs l with
    | 'n' :: 'u' :: 'l' :: 'l' :: rest => some (.jnull, rest)
    | 't' :: 'r' :: 'u' :: 'e' :: rest => some (.jbool true, rest)
    | 'f' :: 'a' :: 'l' :: 's' :: 'e' :: rest => some (.jbool false, rest)
    | '"' :: rest => (parseJString [] rest).map (fun p => (.jstr p.1, p.2))
    | '[' :: rest =>
      (match skipWs rest with
       | ']' :: r2 => some (.jarr [], r2)
       | r1 => (parseJElems fuel r1).map (fun p => (.jarr p.1, p.2)))
    | '\x7b' :: rest =>
      (match skipWs rest with
       | '\x7d' :: r2 => some (.jobj [], r2)
       | r1 => (parseJMembers fuel r1).map (fun p => (.jobj p.1, p.2)))
    | l1 => parseJNumber l1

/-- Parse the comma-separated elements of a non-empty JSON array,
including the closing bracket. -/
def parseJElems : Nat → List Char → Option (List JValue × List Char)
  | 0, _ => none
  | fuel + 1, l =>
    match parseJValue fuel l with
    | none => none
    | some (v, r) =>
      match skipWs r with
      | ',' :: r2 => (parseJElems fuel r2).map (fun p => (v :: p.1, p.2))
      | ']' :: r2 => some ([v], r2)
      | _ => none

/-- Parse the comma-separated members of a non-empty JSON object,
including the closing brace. -/
def parseJMembers : Nat → List Char → Option (List (String × JValue) × List Char)
  | 0, _ => none
  | fuel + 1, l =>
    match skipWs l with
    | '"' :: r =>
      (match parseJString [] r with
       | none => none
       | some (k, r1) =>
        match skipWs r1 with
        | ':' :: r2 =>
          (match parseJValue fuel r2 with
           | none => none
           | some (v, r3) =>
            match skipWs r3 with
            | ',' :: r4 => (parseJMembers fuel r4).map (fun p => ((k, v) :: p.1, p.2))
            | '\x7d' :: r4 => some ([(k, v)], r4)
            | _ => none)
        | _ => none)
    | _ => none

end

/-- Model of Python's `json.loads`: parse one value and require only
whitespace to remain; every failure mode is `none` (the code catches
every exception). -/
def json_loads (s : String) : Option JValue :=
  let l := s.toList
  match parseJValue (l.length + 2) l with
  | some (v, rest) => if (skipWs rest).isEmpty then some v else none
  | none => none

/-- `parse_pyright_json` of `runner.py`: `None` unless the text decodes,
the result is a dict, and both `summary` and `generalDiagnostics` keys
are present. -/
def parse_pyright_json (text : String) : Option JValue :=
  match json_loads text with
  | none => none
  | some obj =>
    match obj with
    | .jobj fields =>
      if (JValue.jobj fields).hasKey "summary" ∧
          (JValue.jobj fields).hasKey "generalDiagnostics" then
        some (.jobj fields)
      else none
    | _ => none

/-- Model of `pathlib.Path(p).parent` on POSIX. -/
def pathParent (p : String) : String :=
  let comps := (pathComponents p).filter (fun c => c ≠ "" ∧ c ≠ ".")
  match comps.dropLast, isAbsPath p with
  | [], true => "/"
  | [], false => "."
  | cs, true => "/" ++ String.intercalate "/" cs
  | cs, false => String.intercalate "/" cs

/-- Python `str.strip()`: drop surrounding whitespace. -/
def pyStrip (s : String) : String :=
  let wsp := fun (c : Char) => c = ' ' ∨ c = '\t' ∨ c = '\n' ∨ c = '\r' ∨
    c = Char.ofNat 11 ∨ c = Char.ofNat 12
  String.mk (((s.toList.dropWhile wsp).reverse.dropWhile wsp).reverse)

/-- Python slicing `s[-n:]`: the last `n` characters. -/
def lastChars (n : Nat) (s : String) : String :=
  String.mk (s.toList.drop (s.toList.length - n))

/-- Truthiness of an `Optional[List[str]]` (`if include:`): true only for
a present, non-empty list. -/
def listTruthy : Option (List String) → Bool
  | some (_ :: _) => true
  | _ => false

/-- Truthiness of an `Optional[str]` (`if params.cwd:`): true only for a
present, non-empty string. -/
def strTruthy : Option String → Bool
  | some s => s ≠ ""
  | none => false

/-- Append an element unless already present: one Python `set.add`,
keeping insertion order as the (arbitrary) set iteration order. -/
def insertIfAbsent (l : List String) (x : String) : List String :=
  if x ∈ l then l else l ++ [x]

/-- Lexicographic strict comparison of two lists under a strict element
comparison: the empty list precedes any non-empty list, otherwise the
first non-equal pair of heads decides (Python's `list.__lt__` and
`tuple.__lt__`). -/
def lexLt {α : Type} [DecidableEq α] (lt : α → α → Bool) : List α → List α → Bool
  | [], [] => false
  | [], _ :: _ => true
  | _ :: _, [] => false
  | a :: as, b :: bs => lt a b || (decide (a = b) && lexLt lt as bs)

theorem lexLt_irrefl {α : Type} [DecidableEq α] (lt : α → α → Bool)
    (hirr : ∀ a, lt a a = false) : ∀ l, lexLt lt l l = false := by
  intro l
  induction l with
  | nil => rfl
  | cons a as ih => simp [lexLt, hirr a, ih]

theorem lexLt_asym {α : Type} [DecidableEq α] (lt : α → α → Bool)
    (hirr : ∀ a, lt a a = false)
    (hasym : ∀ a b, lt a b = true → lt b a = false) :
    ∀ l m, lexLt lt l m = true → lexLt lt m l = false := by
  intro l
  induction l with
  | nil =>
    intro m h
    cases m with
    | nil => simp [lexLt] at h
    | cons b bs => rfl
  | cons a as ih =>
    intro m h
    cases m with
    | nil => simp [lexLt] at h
    | cons b bs =>
      simp only [lexLt, Bool.or_eq_true, Bool.and_eq_true, decide_eq_true_eq] at h
      rcases h with hlt | ⟨hab, hrest⟩
      · have h1 : lt b a = false := hasym _ _ hlt
        have h2 : b ≠ a := by
          intro hc
          subst hc
          rw [hirr b] at hlt
          exact Bool.false_ne_true hlt
        simp [lexLt, h1, h2]
      · subst hab
        simp [lexLt, hirr a, ih bs hrest]

theorem lexLt_trans {α : Type} [DecidableEq α] (lt : α → α → Bool)
    (htrans : ∀ a b c, lt a b = true → lt b c = true → lt a c = true) :
    ∀ l m n, lexLt lt l m = true → lexLt lt m n = true → lexLt lt l n = true := by
  intro l
  induction l with
  | nil =>
    intro m n h1 h2
    cases m with
    | nil => simp [lexLt] at h1
    | cons b bs =>
      cases n with
      | nil => simp [lexLt] at h2
      | cons c cs => rfl
  | cons a as ih =>
    intro m n h1 h2
    cases m with
    | nil => simp [lexLt] at h1
    | cons b bs =>
      cases n with
      | nil => simp [lexLt] at h2
      | cons c cs =>
        simp only [lexLt, Bool.or_eq_true, Bool.and_eq_true, decide_eq_true_eq] at h1 h2 ⊢
        rcases h1 with hlt1 | ⟨heq1, hrest1⟩
        · rcases h2 with hlt2 | ⟨heq2, hrest2⟩
          · exact Or.inl (htrans _ _ _ hlt1 hlt2)
          · exact Or.inl (heq2 ▸ hlt1)
        · subst heq1
          rcases h2 with hlt2 | ⟨heq2, hrest2⟩
          · exact Or.inl hlt2
          · exact Or.inr ⟨heq2, ih bs cs hrest1 hrest2⟩

theorem lexLt_conn {α : Type} [DecidableEq α] (lt : α → α → Bool)
    (hconn : ∀ a b, lt a b = false → lt b a = false → a = b) :
    ∀ l m, lexLt lt l m = false → lexLt lt m l = false → l = m := by
  intro l
  induction l with
  | nil =>
    intro m h1 h2
    cases m with
    | nil => rfl
    | cons b bs => simp [lexLt] at h1
  | cons a as ih =>
    intro m h1 h2
    cases m with
    | nil => simp [lexLt] at h2
    | cons b bs =>
      simp only [lexLt, Bool.or_eq_false_iff, Bool.and_eq_false_iff,
        decide_eq_false_iff_not] at h1 h2
      have hab : a = b := hconn _ _ h1.1 h2.1
      subst hab
      rcases h1.2 with hne | hr1
      · exact absurd rfl hne
      · rcases h2.2 with hne | hr2
        · exact absurd rfl hne
        · rw [ih bs hr1 hr2]

/-- Strict comparison of two Python strings: code-point lexicographic. -/
def strLtB (a b : String) : Bool :=
  lexLt (fun c d : Char => decide (c < d)) a.toList b.toList

theorem charLtB_irrefl : ∀ c : Char, decide (c < c) = false := by
  intro c
  simp

theorem charLtB_asym : ∀ a b : Char, decide (a < b) = true → decide (b < a) = false := by
  intro a b h
  simp only [decide_eq_true_eq] at h
  simp [lt_asymm h]

theorem charLtB_trans :
    ∀ a b c : Char, decide (a < b) = true → decide (b < c) = true → decide (a < c) = true := by
  intro a b c h1 h2
  simp only [decide_eq_true_eq] at h1 h2 ⊢
  exact lt_trans h1 h2

theorem charLtB_conn : ∀ a b : Char, decide (a < b) = false → decide (b < a) = false → a = b := by
  intro a b h1 h2
  simp only [decide_eq_false_iff_not] at h1 h2
  exact le_antisymm (not_lt.mp h2) (not_lt.mp h1)

theorem strLtB_irrefl : ∀ s : String, strLtB s s = false := fun s =>
  lexLt_irrefl _ charLtB_irrefl s.toList

theorem strLtB_asym : ∀ a b : String, strLtB a b = true → strLtB b a = false := fun a b h =>
  lexLt_asym _ charLtB_irrefl charLtB_asym a.toList b.toList h

theorem strLtB_trans :
    ∀ a b c : String, strLtB a b = true → strLtB b c = true → strLtB a c = true :=
  fun a b c h1 h2 => lexLt_trans _ charLtB_trans a.toList b.toList c.toList h1 h2

theorem strLtB_conn : ∀ a b : String, strLtB a b = false → strLtB b a = false → a = b := by
  intro a b h1 h2
  have h := lexLt_conn _ charLtB_conn a.toList b.toList h1 h2
  cases a
  cases b
  exact congrArg String.mk h

/-- Strict comparison of two POSIX `pathlib` paths, as CPython's
`PurePath` ordering implements it: the `/`-separated component lists are
compared lexicographically (`_cparts` in CPython 3.11,
`_str_normcase.split(sep)` in 3.12), not the raw strings. The two orders
differ: `Path("/w/a/x.py") < Path("/w/a-b.py")` by components, while the
raw strings compare the other way since `-` precedes `/`. -/
def pathLtB (a b : String) : Bool :=
  lexLt strLtB (pathComponents a) (pathComponents b)

/-- The ascending order Python's `sorted` produces on `Path` objects:
`a` precedes or equals `b` when `b` does not strictly precede `a` in the
component-wise `PurePath` order. -/
def pathLE (a b : String) : Prop := pathLtB b a = false

instance : DecidableRel pathLE :=
  fun a b => inferInstanceAs (Decidable (pathLtB b a = false))

instance : IsTotal String pathLE := by
  constructor
  intro a b
  cases h : pathLtB b a
  · exact Or.inl h
  · exact Or.inr (lexLt_asym _ strLtB_irrefl strLtB_asym _ _ h)

instance : IsTrans String pathLE := by
  constructor
  intro a b c hab hbc
  unfold pathLE pathLtB at hab hbc ⊢
  cases hca : lexLt strLtB (pathComponents c) (pathComponents a)
  · rfl
  · exfalso
    cases hbc2 : lexLt strLtB (pathComponents b) (pathComponents c)
    · have hcb := lexLt_conn _ strLtB_conn _ _ hbc hbc2
      rw [hcb] at hca
      rw [hca] at hab
      exact absurd hab (by simp)
    · cases hab2 : lexLt strLtB (pathComponents a) (pathComponents b)
      · have hba := lexLt_conn _ strLtB_conn _ _ hab hab2
        rw [← hba] at hca
        rw [hca] at hbc
        exact absurd hbc (by simp)
      · have hac := lexLt_trans _ strLtB_trans _ _ _ hab2 hbc2
        have := lexLt_asym _ strLtB_irrefl strLtB_asym _ _ hac
        rw [hca] at this
        exact absurd this (by simp)

/-- Python `sorted(set(xs))` on `Path` objects: deduplicate, then sort
ascending in the component-wise `PurePath` order. -/
def sortedDedup (l : List String) : List String :=
  (l.foldl insertIfAbsent []).insertionSort pathLE

/-- The `VersionInfo` TypedDict. -/
structure VersionInfo where
  version : String
  executable_path : String
  supports_outputjson : Bool
deriving DecidableEq, Repr

/-- The `CheckResult` TypedDict: single return type of `run_check`. -/
structure CheckResult where
  ok : Bool
  fail_reason : Option String
  command : List String
  exit_code : Int
  summary : SummaryOut
  diagnostics : List DiagnosticOut
  pyright_version : String
  analyzed_root : String
  checked_paths : List String
  venv_path : String
deriving DecidableEq, Repr

/-- The `PyrightCheckParams` dataclass. -/
structure PyrightCheckParams where
  target : String := "."
  cwd : Option String := none
  «include» : Option (List String) := none
  exclude : Option (List String) := none
  extra_args : Option (List String) := none
  timeout_sec : Int := 60
  fail_on_severity : String := "none"
deriving DecidableEq, Repr

/-- Outcome of one `subprocess.run` call: normal completion (with exit
code and captured streams), `TimeoutExpired`, or `FileNotFoundError`. -/
inductive SubprocResult where
  | completed (returncode : Int) (stdout : String) (stderr : String)
  | timeoutExpired
  | fileNotFound
deriving DecidableEq, Repr

/-- The external world `run_check` touches, passed explicitly: the
process working directory, filesystem queries, glob enumeration, the
detected environment path, the resolved Pyright invocation, and the
subprocess runner.  Every field models a boundary the Python code
reaches through `pathlib`/`os`/`subprocess`, not repository logic. -/
structure SysEnv where
  cwdPath : String
  pathExists : String → Bool
  isDir : String → Bool
  isFile : String → Bool
  glob : String → String → List String
  rglobFiles : String → List String
  venvPath : String
  versionInfo : VersionInfo
  argvPrefix : List String
  runProc : List String → String → SubprocResult

/-- The exclude test of `_iter_included_paths` for one candidate `p`:
its root-relative posix path (or bare name when `relative_to` raises)
or its bare name matches some exclude pattern. -/
def excludedBy (env : SysEnv) (relroot : String) (exclude : List String) (p : String) : Bool :=
  let rel_posix :=
    match relativeTo (resolvePath env.cwdPath p) relroot with
    | some r => r
    | none => pathName p
  let name := pathName p
  exclude.any (fun ex => fnmatch rel_posix ex ∨ fnmatch name ex)

/-- `_iter_included_paths` of `runner.py` over the filesystem model:
include globs expand to resolved files (directory hits recurse), with no
includes the singleton resolved root; then exclude patterns filter the
list — whatever it is. -/
def iter_included_paths (env : SysEnv) (root : String)
    (includeGlobs excludeGlobs : Option (List String)) : List String :=
  let paths :=
    if listTruthy includeGlobs then
      (includeGlobs.getD []).foldl
        (fun acc pat =>
          (env.glob root pat).foldl
            (fun acc2 p =>
              if env.isFile p then insertIfAbsent acc2 (resolvePath env.cwdPath p)
              else if env.isDir p then
                (env.rglobFiles p).foldl
                  (fun acc3 f =>
                    if env.isFile f then insertIfAbsent acc3 (resolvePath env.cwdPath f)
                    else acc3)
                  acc2
              else acc2)
            acc)
        []
    else [resolvePath env.cwdPath root]
  if listTruthy excludeGlobs then
    let relroot := resolvePath env.cwdPath root
    paths.filter (fun p => !(excludedBy env relroot (excludeGlobs.getD []) p))
  else paths

/-- The all-zero `SummaryOut` used by every early-failure branch. -/
def zeroSummary : SummaryOut :=
  { files_analyzed := 0, error_count := 0, warning_count := 0,
    information_count := 0, time_sec := 0 }

/-- Lines 456–459 of `runner.py`: `parsed.get("generalDiagnostics", [])
or []`, then `_normalize_diag` on each entry.  Iterating a non-list
truthy value or normalizing a non-dict entry raises, which `none`
models. -/
def normalize_diags (cwd : String) (parsed : JValue) : Option (List DiagnosticOut) :=
  match dictGetD parsed "generalDiagnostics" (.jarr []) with
  | none => none
  | some braw =>
    match (if pyTruthy braw then braw else .jarr []) with
    | .jarr xs => xs.mapM (normalize_diag cwd)
    | _ => none

/-- Lines 461–469 of `runner.py`: the summary counters and elapsed time,
each `int(...)`/`float(...)` of `summary_raw.get(key, default)`. -/
def normalize_summary (parsed : JValue) : Option SummaryOut :=
  match dictGetD parsed "summary" (.jobj []) with
  | none => none
  | some sraw =>
    let summary_raw := if pyTruthy sraw then sraw else .jobj []
    match dictGetD summary_raw "filesAnalyzed" (.jint 0),
          dictGetD summary_raw "errorCount" (.jint 0),
          dictGetD summary_raw "warningCount" (.jint 0),
          dictGetD summary_raw "informationCount" (.jint 0),
          dictGetD summary_raw "timeInSec" (.jfloat 0) with
    | some fa, some ec, some wc, some ic, some ts =>
      (match pyInt fa, pyInt ec, pyInt wc, pyInt ic, pyFloat ts with
       | some fa2, some ec2, some wc2, some ic2, some ts2 =>
        some { files_analyzed := fa2, error_count := ec2, warning_count := wc2,
               information_count := ic2, time_sec := ts2 }
       | _, _, _, _, _ => none)
    | _, _, _, _, _ => none

/-- `str(parsed.get("version") or version_info["version"])`. -/
def pyrightVersionOf (parsed : JValue) (fallback : String) : String :=
  match dictGet parsed "version" with
  | some (some v) => if pyTruthy v then pyStr v else fallback
  | _ => fallback

/-- The fail reason of the missing-pyright branch. -/
def pyrightUnavailableMsg : String :=
  "Pyright not available (neither 'pyright' executable nor 'python -m pyright'). " ++
  "Install via pipx: 'pipx install pyright-mcp' (bundles pyright), " ++
  "or add pyright to your environment."

/-- The fail reason of the timeout branch. -/
def timeoutMsg (timeout_sec : Int) : String :=
  "Timeout after " ++ toString timeout_sec ++ "s while running Pyright. " ++
  "Try increasing timeout_sec, reducing include scope, or enabling Pyright caching."

/-- The fail reason of the spawn-failure branch. -/
def spawnFailMsg : String :=
  "Failed to execute Pyright. Ensure 'pyright' is installed and on PATH."

/-- The fail reason of the unparseable-output branch. -/
def parseFailMsg (tail_excerpt : String) : String :=
  "Failed to parse Pyright JSON output. Consider upgrading Pyright or " ++
  "checking CLI arguments. Output tail:\n" ++ tail_excerpt

/-- Lines 316–319 and 358–361 of `runner.py` (computed identically at
both places): the root used for include/exclude expansion — the resolved
target when it is a directory, its resolved parent otherwise. -/
def rootForGlobs (env : SysEnv) (target_path : String) : String :=
  if env.isDir target_path then resolvePath env.cwdPath target_path
  else resolvePath env.cwdPath (pathParent target_path)

/-- The candidate path set of one check request: `_iter_included_paths`
at the glob root (`run_check` computes this twice with the same
arguments, for `checked_paths` and for the subprocess arguments). -/
def candidatePaths (env : SysEnv) (params : PyrightCheckParams) : List String :=
  iter_included_paths env (rootForGlobs env (pathStr params.target))
    params.«include» params.exclude

/-- `PyrightRunner.run_check` of `runner.py` over the explicit
environment.  `none` models an uncaught exception escaping the method
(possible only in the normalization of a parsed report).  Every returned
branch is translated positionally from the source. -/
def run_check (env : SysEnv) (params : PyrightCheckParams) : Option CheckResult :=
  let venv_path := env.venvPath
  let target_path := pathStr params.target
  if !(env.pathExists target_path) then
    let analyzed_root :=
      resolvePath env.cwdPath
        (if strTruthy params.cwd then (params.cwd.getD "") else pathParent target_path)
    some {
      ok := false
      fail_reason := some ("Target path not found: " ++ target_path)
      command := []
      exit_code := 4
      summary := zeroSummary
      diagnostics := []
      pyright_version := env.versionInfo.version
      analyzed_root := analyzed_root
      checked_paths := []
      venv_path := venv_path }
  else
    let analyzed_root :=
      if strTruthy params.cwd then resolvePath env.cwdPath (params.cwd.getD "")
      else if env.isDir target_path then resolvePath env.cwdPath target_path
      else resolvePath env.cwdPath (pathParent target_path)
    let paths_for_checked := candidatePaths env params
    let checked_paths :=
      if listTruthy params.«include» then sortedDedup paths_for_checked
      else [resolvePath env.cwdPath target_path]
    let version_info := env.versionInfo
    if env.argvPrefix.isEmpty then
      some {
        ok := false
        fail_reason := some pyrightUnavailableMsg
        command := []
        exit_code := -1
        summary := zeroSummary
        diagnostics := []
        pyright_version := ""
        analyzed_root := analyzed_root
        checked_paths := checked_paths
        venv_path := venv_path }
    else
      let argv := env.argvPrefix ++ ["--outputjson"] ++ params.extra_args.getD []
      let paths := candidatePaths env params
      let path_args :=
        if listTruthy params.«include» then sortedDedup paths
        else [resolvePath env.cwdPath target_path]
      let cmd := argv ++ path_args
      match env.runProc cmd analyzed_root with
      | .timeoutExpired =>
        some {
          ok := false
          fail_reason := some (timeoutMsg params.timeout_sec)
          command := cmd
          exit_code := -1
          summary := zeroSummary
          diagnostics := []
          pyright_version := version_info.version
          analyzed_root := analyzed_root
          checked_paths := checked_paths
          venv_path := venv_path }
      | .fileNotFound =>
        some {
          ok := false
          fail_reason := some spawnFailMsg
          command := cmd
          exit_code := -1
          summary := zeroSummary
          diagnostics := []
          pyright_version := version_info.version
          analyzed_root := analyzed_root
          checked_paths := checked_paths
          venv_path := venv_path }
      | .completed returncode stdout stderr =>
        let raw_output := stdout
        match parse_pyright_json raw_output with
        | none =>
          let tail := pyStrip (raw_output ++ "\n" ++ stderr)
          let tail_excerpt := if tail.toList.length > 1000 then lastChars 1000 tail else tail
          some {
            ok := false
            fail_reason := some (parseFailMsg tail_excerpt)
            command := cmd
            exit_code := returncode
            summary := zeroSummary
            diagnostics := []
            pyright_version := version_info.version
            analyzed_root := analyzed_root
            checked_paths := checked_paths
            venv_path := venv_path }
        | some parsed =>
          match normalize_diags env.cwdPath parsed, normalize_summary parsed with
          | some diags0, some summary =>
            let diags := sortDiags diags0
            (match compute_threshold_ok diags params.fail_on_severity with
             | none => none
             | some (okv, reason) =>
              some {
                ok := okv
                fail_reason := reason
                command := cmd
                exit_code := returncode
                summary := summary
                diagnostics := diags
                pyright_version := pyrightVersionOf parsed version_info.version
                analyzed_root := analyzed_root
                checked_paths := checked_paths
                venv_path := venv_path })
          | _, _ => none

instance : IsTotal DiagnosticOut diagLE := by
  constructor
  intro a b
  simp only [diagLE, diagKeyLE, Bool.or_eq_true, Bool.and_eq_true, decide_eq_true_eq]
  rcases lt_trichotomy a.file b.file with h | h | h
  · exact Or.inl (Or.inl h)
  · rcases lt_trichotomy a.range.start.line b.range.start.line with h2 | h2 | h2
    · exact Or.inl (Or.inr ⟨h, Or.inl h2⟩)
    · rcases le_total a.range.start.character b.range.start.character with h3 | h3
      · exact Or.inl (Or.inr ⟨h, Or.inr ⟨h2, h3⟩⟩)
      · exact Or.inr (Or.inr ⟨h.symm, Or.inr ⟨h2.symm, h3⟩⟩)
    · exact Or.inr (Or.inr ⟨h.symm, Or.inl h2⟩)
  · exact Or.inr (Or.inl h)

instance : IsTrans DiagnosticOut diagLE := by
  constructor
  intro a b c hab hbc
  simp only [diagLE, diagKeyLE, Bool.or_eq_true, Bool.and_eq_true, decide_eq_true_eq]
    at hab hbc ⊢
  rcases hab with h1 | ⟨h1, hr1⟩
  · rcases hbc with h2 | ⟨h2, _⟩
    · exact Or.inl (h1.trans h2)
    · exact Or.inl (h2 ▸ h1)
  · rcases hbc with h2 | ⟨h2, hr2⟩
    · exact Or.inl (h1 ▸ h2)
    · refine Or.inr ⟨h1.trans h2, ?_⟩
      rcases hr1 with hl1 | ⟨hl1, hc1⟩ <;> rcases hr2 with hl2 | ⟨hl2, hc2⟩
      · exact Or.inl (hl1.trans hl2)
      · exact Or.inl (hl2 ▸ hl1)
      · exact Or.inl (hl1 ▸ hl2)
      · exact Or.inr ⟨hl1.trans hl2, le_trans hc1 hc2⟩

theorem sortDiags_sorted (l : List DiagnosticOut) : List.Sorted diagLE (sortDiags l) :=
  List.sorted_insertionSort diagLE l

theorem sortDiags_of_sorted {l : List DiagnosticOut} (h : List.Sorted diagLE l) :
    sortDiags l = l :=
  h.insertionSort_eq

/-- Every branch of `run_check` returns either an empty diagnostics list
or one produced by `sortDiags`. -/
theorem run_check_diags_shape (env : SysEnv) (params : PyrightCheckParams)
    (r : CheckResult) (h : run_check env params = some r) :
    r.diagnostics = [] ∨ ∃ l, r.diagnostics = sortDiags l := by
  simp only [run_check] at h
  split at h
  · cases h; exact Or.inl rfl
  · split at h
    · cases h; exact Or.inl rfl
    · split at h
      · cases h; exact Or.inl rfl
      · cases h; exact Or.inl rfl
      · split at h
        · cases h; exact Or.inl rfl
        · split at h
          · split at h
            · exact Option.noConfusion h
            · cases h; exact Or.inr ⟨_, rfl⟩
          · exact Option.noConfusion h

/-- Inversion of a successful `_normalize_diag`: the raw lookups and
conversions it performed and how every output field was produced. -/
theorem normalize_diag_inversion (cwd : String) (d : JValue) (out : DiagnosticOut)
    (h : normalize_diag cwd d = some out) :
    ∃ fileRaw sevRaw rngOpt startOpt endOpt slv scv elv ecv msgRaw ruleVal,
      dictGetD d "file" (.jstr "") = some fileRaw ∧
      dictGetD d "severity" (.jstr "information") = some sevRaw ∧
      dictGet d "range" = some rngOpt ∧
      dictGet (orEmptyObj rngOpt) "start" = some startOpt ∧
      dictGet (orEmptyObj rngOpt) "end" = some endOpt ∧
      dictGetD (orEmptyObj startOpt) "line" (.jint 0) = some slv ∧
      dictGetD (orEmptyObj startOpt) "character" (.jint 0) = some scv ∧
      dictGetD (orEmptyObj endOpt) "line" (.jint 0) = some elv ∧
      dictGetD (orEmptyObj endOpt) "character" (.jint 0) = some ecv ∧
      dictGetD d "message" (.jstr "") = some msgRaw ∧
      dictGet d "rule" = some ruleVal ∧
      pyInt slv = some out.range.start.line ∧
      pyInt scv = some out.range.start.character ∧
      pyInt elv = some out.range.«end».line ∧
      pyInt ecv = some out.range.«end».character ∧
      SEVERITY_LEVEL (sevString sevRaw) = some out.severity_level ∧
      out.file = resolvePath cwd (pyStr fileRaw) ∧
      out.severity = sevString sevRaw ∧
      out.message = pyStr msgRaw ∧
      out.rule = ruleString ruleVal ∧
      out.code = ruleString ruleVal := by
  simp only [normalize_diag] at h
  split at h
  · split at h
    · exact Option.noConfusion h
    · split at h
      · split at h
        · split at h
          · split at h
            · cases h
              rename_i x15 x14 fileRaw sevRaw hfile hsev x13 rngOpt hrng x12 x11 startOpt
                endOpt hstart hend x10 x9 x8 x7 slv scv elv ecv hsl hsc hel hec x6 x5 x4 x3
                sline schar eline echar hslv hscv helv hecv x2 x1 x0 lvl msgRaw ruleVal
                hlvl hmsg hrule
              exact ⟨fileRaw, sevRaw, rngOpt, startOpt, endOpt, slv, scv, elv, ecv, msgRaw,
                ruleVal, hfile, hsev, hrng, hstart, hend, hsl, hsc, hel, hec, hmsg, hrule,
                hslv, hscv, helv, hecv, hlvl, rfl, rfl, rfl, rfl, rfl⟩
            · exact Option.noConfusion h
          · exact Option.noConfusion h
        · exact Option.noConfusion h
      · exact Option.noConfusion h
  · exact Option.noConfusion h

/-- The `SEVERITY_LEVEL` table inverted: the only three pairings. -/
theorem SEVERITY_LEVEL_inv {s : String} {l : Int} (h : SEVERITY_LEVEL s = some l) :
    (s = "information" ∧ l = 1) ∨ (s = "warning" ∧ l = 2) ∨ (s = "error" ∧ l = 3) := by
  unfold SEVERITY_LEVEL at h
  split at h
  · exact Or.inl ⟨rfl, by injection h with h2; omega⟩
  · exact Or.inr (Or.inl ⟨rfl, by injection h with h2; omega⟩)
  · exact Or.inr (Or.inr ⟨rfl, by injection h with h2; omega⟩)
  · exact Option.noConfusion h

/-- C3: every diagnostic produced by `_normalize_diag` carries exactly
the table pairing of severity and severity level: the `SEVERITY_LEVEL`
table maps its severity to its severity_level, and the pairing is one of
(information, 1), (warning, 2), (error, 3) — no other combination can be
produced. -/
theorem C3_severity_level_invariant (cwd : String) (d : JValue) (out : DiagnosticOut)
    (h : normalize_diag cwd d = some out) :
    SEVERITY_LEVEL out.severity = some out.severity_level ∧
    ((out.severity = "information" ∧ out.severity_level = 1) ∨
     (out.severity = "warning" ∧ out.severity_level = 2) ∨
     (out.severity = "error" ∧ out.severity_level = 3)) := by
  obtain ⟨fileRaw, sevRaw, rngOpt, startOpt, endOpt, slv, scv, elv, ecv, msgRaw, ruleVal,
    hfile, hsev, hrng, hstart, hend, hsl, hsc, hel, hec, hmsg, hrule,
    hslv, hscv, helv, hecv, hlvl, hof, hosev, homsg, horule, hocode⟩ :=
    normalize_diag_inversion cwd d out h
  rw [hosev]
  exact ⟨hlvl, SEVERITY_LEVEL_inv hlvl⟩

/-- Sample raw diagnostic used as a concrete witness input. -/
def sampleRawDiag : JValue :=
  .jobj [("file", .jstr "src/a.py"),
         ("severity", .jstr "error"),
         ("message", .jstr "boom"),
         ("rule", .jstr "reportGeneralTypeIssues"),
         ("range", .jobj [("start", .jobj [("line", .jint 3), ("character", .jint 1)]),
                          ("end", .jobj [("line", .jint 3), ("character", .jint 7)])])]

/-- The diagnostic `_normalize_diag` produces from `sampleRawDiag` under
working directory `/w`. -/
def sampleNormDiag : DiagnosticOut :=
  { file := "/w/src/a.py"
    range := { start := { line := 3, character := 1 }, «end» := { line := 3, character := 7 } }
    severity := "error"
    severity_level := 3
    message := "boom"
    code := some "reportGeneralTypeIssues"
    rule := some "reportGeneralTypeIssues" }

theorem C3_severity_level_invariant_witness :
    normalize_diag "/w" sampleRawDiag = some sampleNormDiag ∧
    (SEVERITY_LEVEL sampleNormDiag.severity = some sampleNormDiag.severity_level ∧
     ((sampleNormDiag.severity = "information" ∧ sampleNormDiag.severity_level = 1) ∨
      (sampleNormDiag.severity = "warning" ∧ sampleNormDiag.severity_level = 2) ∨
      (sampleNormDiag.severity = "error" ∧ sampleNormDiag.severity_level = 3))) :=
  ⟨rfl, C3_severity_level_invariant "/w" sampleRawDiag sampleNormDiag rfl⟩

/-- C10: `_normalize_diag` copies the `rule` field verbatim into `code`,
so the two identifier fields of every produced diagnostic are equal. -/
theorem C10_code_equals_rule (cwd : String) (d : JValue) (out : DiagnosticOut)
    (h : normalize_diag cwd d = some out) :
    out.code = out.rule := by
  obtain ⟨fileRaw, sevRaw, rngOpt, startOpt, endOpt, slv, scv, elv, ecv, msgRaw, ruleVal,
    hfile, hsev, hrng, hstart, hend, hsl, hsc, hel, hec, hmsg, hrule,
    hslv, hscv, helv, hecv, hlvl, hof, hosev, homsg, horule, hocode⟩ :=
    normalize_diag_inversion cwd d out h
  rw [horule, hocode]

theorem C10_code_equals_rule_witness :
    normalize_diag "/w" sampleRawDiag = some sampleNormDiag ∧
    sampleNormDiag.code = sampleNormDiag.rule :=
  ⟨rfl, C10_code_equals_rule "/w" sampleRawDiag sampleNormDiag rfl⟩

theorem le_foldl_max (l : List DiagnosticOut) :
    ∀ a : Int, a ≤ l.foldl (fun acc d => max acc d.severity_level) a := by
  induction l with
  | nil => intro a; simp
  | cons d rest ih =>
    intro a
    simp only [List.foldl]
    exact le_trans (le_max_left _ _) (ih _)

/-- The early-`break` scan against the full fold: if the overall maximum
reaches the threshold the scan result does too (and dominates its
accumulator); otherwise the scan computes exactly the full fold. -/
theorem scanMax_spec (thVal : Int) (l : List DiagnosticOut) : ∀ acc : Int,
    (thVal ≤ l.foldl (fun a d => max a d.severity_level) acc →
       thVal ≤ scanMaxSev thVal acc l ∧ acc ≤ scanMaxSev thVal acc l) ∧
    (l.foldl (fun a d => max a d.severity_level) acc < thVal →
       scanMaxSev thVal acc l = l.foldl (fun a d => max a d.severity_level) acc) := by
  induction l with
  | nil =>
    intro acc
    exact ⟨fun h => ⟨by simpa [scanMaxSev] using h, by simp [scanMaxSev]⟩,
      fun _ => by simp [scanMaxSev]⟩
  | cons d rest ih =>
    intro acc
    simp only [scanMaxSev, List.foldl]
    by_cases hm : thVal ≤ max acc d.severity_level
    · simp only [hm, if_true]
      refine ⟨fun _ => ⟨by simp [hm], le_max_left _ _⟩, fun hf => ?_⟩
      exact absurd (le_trans hm (le_foldl_max rest _)) (not_le.mpr hf)
    · simp only [hm, if_false]
      refine ⟨fun hf => ?_, fun hf => (ih _).2 hf⟩
      obtain ⟨h1, h2⟩ := (ih (max acc d.severity_level)).1 hf
      exact ⟨h1, le_trans (le_max_left _ _) h2⟩

/-- Positivity of the full fold from zero. -/
theorem maxSeverityLevel_nonneg (l : List DiagnosticOut) : 0 ≤ maxSeverityLevel l :=
  le_foldl_max l 0

theorem compute_none (diags : List DiagnosticOut) :
    compute_threshold_ok diags "none" = some (true, none) := by
  simp [compute_threshold_ok]

/-- C1 (amended): threshold `none` is always ok with no reason; for the
three real thresholds the verdict is not-ok exactly when the maximum
severity level over all diagnostics is non-zero and at least the
threshold level, and the reason then names the threshold together with
the maximum level seen by the scan up to its early break — which can be
smaller than the overall maximum; an empty list is always ok. -/
theorem C1_threshold_evaluation (diags : List DiagnosticOut) (threshold : String)
    (hth : threshold = "information" ∨ threshold = "warning" ∨ threshold = "error") :
    compute_threshold_ok diags "none" = some (true, none) ∧
    (diags = [] → compute_threshold_ok diags threshold = some (true, none)) ∧
    ((maxSeverityLevel diags ≠ 0 ∧
        (FAIL_ON_LEVEL threshold).getD 0 ≤ maxSeverityLevel diags) →
      compute_threshold_ok diags threshold =
        some (false, some (thresholdMsg threshold
          (scanMaxSev ((FAIL_ON_LEVEL threshold).getD 0) 0 diags)))) ∧
    (¬(maxSeverityLevel diags ≠ 0 ∧
        (FAIL_ON_LEVEL threshold).getD 0 ≤ maxSeverityLevel diags) →
      compute_threshold_ok diags threshold = some (true, none)) := by
  have hlvl : ∃ thVal : Int, FAIL_ON_LEVEL threshold = some thVal ∧ 1 ≤ thVal ∧
      threshold ≠ "none" := by
    rcases hth with h | h | h <;> subst h
    · exact ⟨1, rfl, by omega, by decide⟩
    · exact ⟨2, rfl, by omega, by decide⟩
    · exact ⟨3, rfl, by omega, by decide⟩
  obtain ⟨thVal, hfl, hpos, hne⟩ := hlvl
  refine ⟨compute_none diags, ?_, ?_, ?_⟩
  · rintro rfl
    simp [compute_threshold_ok, hne, hfl, scanMaxSev]
  · rintro ⟨hnz, hge⟩
    rw [hfl] at hge
    simp only [Option.getD_some] at hge
    unfold maxSeverityLevel at hge
    obtain ⟨h1, h2⟩ := (scanMax_spec thVal diags 0).1 hge
    simp only [compute_threshold_ok, hne, if_false, hfl, Option.getD_some]
    have hcond : thVal ≤ scanMaxSev thVal 0 diags ∧ 0 < scanMaxSev thVal 0 diags :=
      ⟨h1, lt_of_lt_of_le (by omega) h1⟩
    rw [if_pos hcond]
  · intro hneg
    have hlt : maxSeverityLevel diags < thVal := by
      rcases not_and_or.mp hneg with h | h
      · have h0 : maxSeverityLevel diags = 0 := not_ne_iff.mp h
        omega
      · rw [hfl] at h
        simp only [Option.getD_some] at h
        omega
    unfold maxSeverityLevel at hlt
    have heq := (scanMax_spec thVal diags 0).2 hlt
    simp only [compute_threshold_ok, hne, if_false, hfl]
    have hcond : ¬(thVal ≤ scanMaxSev thVal 0 diags ∧ 0 < scanMaxSev thVal 0 diags) := by
      rw [heq]
      intro hand
      exact absurd hand.1 (not_le.mpr hlt)
    rw [if_neg hcond]

/-- A concrete information-severity diagnostic. -/
def infoDiag : DiagnosticOut :=
  { file := "/t/a.py"
    range := { start := { line := 0, character := 0 }, «end» := { line := 0, character := 0 } }
    severity := "information"
    severity_level := 1
    message := "note"
    code := none
    rule := none }

/-- A concrete error-severity diagnostic. -/
def errDiag : DiagnosticOut :=
  { file := "/t/b.py"
    range := { start := { line := 2, character := 4 }, «end» := { line := 2, character := 9 } }
    severity := "error"
    severity_level := 3
    message := "bad"
    code := none
    rule := none }

/-- C1, counterexample to the claim as stated: with diagnostics
`[infoDiag, errDiag]` and threshold `information`, the maximum severity
level across all diagnostics is 3, but the early-breaking scan stops at
the first diagnostic and the reason string reports
`max_severity_level=1`, not the observed maximum 3. -/
theorem C1_threshold_reason_counterexample :
    compute_threshold_ok [infoDiag, errDiag] "information" =
      some (false, some (thresholdMsg "information" 1)) ∧
    maxSeverityLevel [infoDiag, errDiag] = 3 ∧
    (compute_threshold_ok [infoDiag, errDiag] "information").map (fun p => p.2) ≠
      some (some (thresholdMsg "information" (maxSeverityLevel [infoDiag, errDiag]))) := by
  refine ⟨rfl, rfl, ?_⟩
  decide

theorem C1_threshold_evaluation_witness :
    compute_threshold_ok [errDiag] "error" =
      some (false, some (thresholdMsg "error"
        (scanMaxSev ((FAIL_ON_LEVEL "error").getD 0) 0 [errDiag]))) :=
  (C1_threshold_evaluation [errDiag] "error" (Or.inr (Or.inr rfl))).2.2.1 (by decide)

/-- C2: the diagnostics list of every result `run_check` returns is
sorted ascending by the three-part key (file, start line, start column),
and re-sorting it by that key is a no-op. -/
theorem C2_diagnostics_sorted (env : SysEnv) (params : PyrightCheckParams)
    (r : CheckResult) (h : run_check env params = some r) :
    List.Sorted diagLE r.diagnostics ∧ sortDiags r.diagnostics = r.diagnostics := by
  rcases run_check_diags_shape env params r h with h0 | ⟨l, hl⟩
  · rw [h0]
    exact ⟨List.sorted_nil, rfl⟩
  · rw [hl]
    exact ⟨sortDiags_sorted l, sortDiags_of_sorted (sortDiags_sorted l)⟩

/-- A Pyright JSON report as captured from the subprocess: version,
summary block with an `errorCount` of 1, and no diagnostics. -/
def sampleJson : String :=
  "\x7b\"version\": \"1.1.405\", \"summary\": \x7b\"filesAnalyzed\": 1, " ++
  "\"errorCount\": 1, \"warningCount\": 0, \"informationCount\": 0, " ++
  "\"timeInSec\": 1\x7d, \"generalDiagnostics\": []\x7d"

/-- A concrete external environment for witness runs: everything exists,
everything is a directory, Pyright resolves to `/usr/bin/pyright` and
each run exits 0 printing `sampleJson`. -/
def okEnv : SysEnv :=
  { cwdPath := "/w"
    pathExists := fun _ => true
    isDir := fun _ => true
    isFile := fun _ => true
    glob := fun _ _ => []
    rglobFiles := fun _ => []
    venvPath := "/venv"
    versionInfo := { version := "1.1.405", executable_path := "/usr/bin/pyright",
                     supports_outputjson := true }
    argvPrefix := ["/usr/bin/pyright"]
    runProc := fun _ _ => .completed 0 sampleJson "" }

/-- The check result `run_check` produces from `okEnv` and default
parameters. -/
def okRun : CheckResult :=
  { ok := true
    fail_reason := none
    command := ["/usr/bin/pyright", "--outputjson", "/w"]
    exit_code := 0
    summary := { files_analyzed := 1, error_count := 1, warning_count := 0,
                 information_count := 0, time_sec := 1 }
    diagnostics := []
    pyright_version := "1.1.405"
    analyzed_root := "/w"
    checked_paths := ["/w"]
    venv_path := "/venv" }

set_option maxRecDepth 100000 in
theorem C2_diagnostics_sorted_witness :
    run_check okEnv {} = some okRun ∧
    (List.Sorted diagLE okRun.diagnostics ∧ sortDiags okRun.diagnostics = okRun.diagnostics) :=
  ⟨rfl, C2_diagnostics_sorted okEnv {} okRun rfl⟩

/-- C6: when the target path does not exist, `run_check` returns
ok=false, exit code 4, a fail reason that literally contains
"not found" and names the missing path, empty diagnostics, a zeroed
summary and empty checked paths. -/
theorem C6_missing_target (env : SysEnv) (params : PyrightCheckParams) (r : CheckResult)
    (hex : env.pathExists (pathStr params.target) = false)
    (h : run_check env params = some r) :
    r.ok = false ∧ r.exit_code = 4 ∧
    r.fail_reason = some ("Target path not found: " ++ pathStr params.target) ∧
    r.fail_reason = some ("Target path " ++ ("not found" ++ (": " ++ pathStr params.target))) ∧
    r.diagnostics = [] ∧ r.summary = zeroSummary ∧ r.checked_paths = [] := by
  simp only [run_check, hex, Bool.not_false, if_true] at h
  cases h
  exact ⟨rfl, rfl, rfl, rfl, rfl, rfl, rfl⟩

/-- `okEnv` with no path existing on the filesystem. -/
def missEnv : SysEnv := { okEnv with pathExists := fun _ => false }

/-- The result of a check against `missEnv` for target `missing.py`. -/
def missRun : CheckResult :=
  { ok := false
    fail_reason := some "Target path not found: missing.py"
    command := []
    exit_code := 4
    summary := zeroSummary
    diagnostics := []
    pyright_version := "1.1.405"
    analyzed_root := "/w"
    checked_paths := []
    venv_path := "/venv" }

set_option maxRecDepth 100000 in
theorem C6_missing_target_witness :
    missEnv.pathExists (pathStr "missing.py") = false ∧
    run_check missEnv { target := "missing.py" } = some missRun ∧
    (missRun.ok = false ∧ missRun.exit_code = 4 ∧
     missRun.fail_reason = some ("Target path not found: " ++ pathStr "missing.py") ∧
     missRun.fail_reason = some ("Target path " ++ ("not found" ++ (": " ++ pathStr "missing.py"))) ∧
     missRun.diagnostics = [] ∧ missRun.summary = zeroSummary ∧ missRun.checked_paths = []) :=
  ⟨rfl, rfl, C6_missing_target missEnv { target := "missing.py" } missRun rfl rfl⟩

/-- C5: `parse_pyright_json` returns `None` exactly when the text fails
to decode as JSON, decodes to a non-dict, or the dict lacks `summary` or
`generalDiagnostics`; otherwise it returns the decoded dict; and parsing
the literal text `not-json` yields `None` rather than raising. -/
theorem C5_parser_totality :
    (∀ text : String,
      parse_pyright_json text = none ↔
        (json_loads text = none ∨
         (∃ v, json_loads text = some v ∧
           ((∀ fields, v ≠ .jobj fields) ∨
            v.hasKey "summary" = false ∨ v.hasKey "generalDiagnostics" = false)))) ∧
    (∀ (text : String) (v : JValue),
      json_loads text = some v → (∃ fields, v = .jobj fields) →
      v.hasKey "summary" = true → v.hasKey "generalDiagnostics" = true →
      parse_pyright_json text = some v) ∧
    parse_pyright_json "not-json" = none := by
  refine ⟨?_, ?_, rfl⟩
  · intro text
    unfold parse_pyright_json
    cases hjl : json_loads text with
    | none => simp
    | some v =>
      simp only [Option.some.injEq]
      cases v with
      | jobj fields =>
        by_cases hs : (JValue.jobj fields).hasKey "summary"
        · by_cases hg : (JValue.jobj fields).hasKey "generalDiagnostics"
          · simp [hs, hg]
          · simp [hs, hg]
        · simp [hs]
      | jnull => simp
      | jbool b => simp
      | jint n => simp
      | jfloat q => simp
      | jstr s => simp
      | jarr xs => simp
  · intro text v hjl ⟨fields, hv⟩ hs hg
    subst hv
    unfold parse_pyright_json
    rw [hjl]
    simp [hs, hg]

/-- The decoded form of `sampleJson`. -/
def sampleReport : JValue :=
  .jobj [("version", .jstr "1.1.405"),
         ("summary", .jobj [("filesAnalyzed", .jint 1), ("errorCount", .jint 1),
                            ("warningCount", .jint 0), ("informationCount", .jint 0),
                            ("timeInSec", .jint 1)]),
         ("generalDiagnostics", .jarr [])]

set_option maxRecDepth 100000 in
theorem C5_parser_totality_witness :
    json_loads sampleJson = some sampleReport ∧
    parse_pyright_json sampleJson = some sampleReport ∧
    parse_pyright_json "not-json" = none :=
  ⟨rfl, C5_parser_totality.2.1 sampleJson sampleReport rfl ⟨_, rfl⟩ rfl rfl,
   C5_parser_totality.2.2⟩

/-- `summary_raw.get(key, default)` through the `or \x7b\x7d` guard, as a
single lookup over the raw summary fields. -/
theorem summary_raw_get (sfields : List (String × JValue)) (key : String) (dflt : JValue) :
    dictGetD (if pyTruthy (.jobj sfields) then JValue.jobj sfields else .jobj []) key dflt
      = some ((lookupLast sfields key).getD dflt) := by
  cases sfields with
  | nil => simp [pyTruthy, dictGetD, dictGet, lookupLast, List.isEmpty]
  | cons a rest => simp [pyTruthy, dictGetD, dictGet, List.isEmpty]

/-- C7: the output summary is a function of the raw report's `summary`
field alone (never of the diagnostics list), and each counter is the
verbatim reported integer (elapsed time the reported number), defaulting
to 0 (0.0) only when the key is absent. -/
theorem C7_summary_passthrough :
    (∀ p1 p2 : JValue,
      dictGetD p1 "summary" (.jobj []) = dictGetD p2 "summary" (.jobj []) →
      normalize_summary p1 = normalize_summary p2) ∧
    (∀ (parsed : JValue) (sfields : List (String × JValue)) (out : SummaryOut),
      dictGetD parsed "summary" (.jobj []) = some (.jobj sfields) →
      normalize_summary parsed = some out →
      ((∀ n, lookupLast sfields "filesAnalyzed" = some (.jint n) → out.files_analyzed = n) ∧
       (lookupLast sfields "filesAnalyzed" = none → out.files_analyzed = 0) ∧
       (∀ n, lookupLast sfields "errorCount" = some (.jint n) → out.error_count = n) ∧
       (lookupLast sfields "errorCount" = none → out.error_count = 0) ∧
       (∀ n, lookupLast sfields "warningCount" = some (.jint n) → out.warning_count = n) ∧
       (lookupLast sfields "warningCount" = none → out.warning_count = 0) ∧
       (∀ n, lookupLast sfields "informationCount" = some (.jint n) → out.information_count = n) ∧
       (lookupLast sfields "informationCount" = none → out.information_count = 0) ∧
       (∀ n : Int, lookupLast sfields "timeInSec" = some (.jint n) → out.time_sec = n) ∧
       (∀ q, lookupLast sfields "timeInSec" = some (.jfloat q) → out.time_sec = q) ∧
       (lookupLast sfields "timeInSec" = none → out.time_sec = 0))) := by
  constructor
  · intro p1 p2 h
    unfold normalize_summary
    rw [h]
  · intro parsed sfields out h1 h2
    unfold normalize_summary at h2
    rw [h1] at h2
    simp only [summary_raw_get] at h2
    split at h2
    · rename_i x1 x2 x3 x4 x5 fa2 ec2 wc2 ic2 ts2 hfa hec hwc hic hts
      cases h2
      refine ⟨?_, ?_, ?_, ?_, ?_, ?_, ?_, ?_, ?_, ?_, ?_⟩
      · intro n hn
        rw [hn] at hfa
        simp only [Option.getD_some, pyInt, Option.some.injEq] at hfa
        exact hfa.symm
      · intro hn
        rw [hn] at hfa
        simp only [Option.getD_none, pyInt, Option.some.injEq] at hfa
        exact hfa.symm
      · intro n hn
        rw [hn] at hec
        simp only [Option.getD_some, pyInt, Option.some.injEq] at hec
        exact hec.symm
      · intro hn
        rw [hn] at hec
        simp only [Option.getD_none, pyInt, Option.some.injEq] at hec
        exact hec.symm
      · intro n hn
        rw [hn] at hwc
        simp only [Option.getD_some, pyInt, Option.some.injEq] at hwc
        exact hwc.symm
      · intro hn
        rw [hn] at hwc
        simp only [Option.getD_none, pyInt, Option.some.injEq] at hwc
        exact hwc.symm
      · intro n hn
        rw [hn] at hic
        simp only [Option.getD_some, pyInt, Option.some.injEq] at hic
        exact hic.symm
      · intro hn
        rw [hn] at hic
        simp only [Option.getD_none, pyInt, Option.some.injEq] at hic
        exact hic.symm
      · intro n hn
        rw [hn] at hts
        simp only [Option.getD_some, pyFloat, Option.some.injEq] at hts
        exact hts.symm
      · intro q hn
        rw [hn] at hts
        simp only [Option.getD_some, pyFloat, Option.some.injEq] at hts
        exact hts.symm
      · intro hn
        rw [hn] at hts
        simp only [Option.getD_none, pyFloat, Option.some.injEq] at hts
        exact hts.symm
    · exact Option.noConfusion h2

/-- The summary fields of `sampleReport`. -/
def sampleSummaryFields : List (String × JValue) :=
  [("filesAnalyzed", .jint 1), ("errorCount", .jint 1), ("warningCount", .jint 0),
   ("informationCount", .jint 0), ("timeInSec", .jint 1)]

/-- `sampleReport` with one diagnostic added to the diagnostics list but
the same summary block: errorCount still reports 1. -/
def sampleReport2 : JValue :=
  .jobj [("version", .jstr "1.1.405"),
         ("summary", .jobj sampleSummaryFields),
         ("generalDiagnostics", .jarr [sampleRawDiag])]

theorem C7_summary_passthrough_witness :
    normalize_summary sampleReport = some okRun.summary ∧
    okRun.summary.error_count = 1 ∧
    normalize_summary sampleReport = normalize_summary sampleReport2 :=
  ⟨rfl,
   (C7_summary_passthrough.2 sampleReport sampleSummaryFields okRun.summary rfl rfl).2.2.1 1 rfl,
   C7_summary_passthrough.1 sampleReport sampleReport2 rfl⟩

theorem sortedDedup_sorted (l : List String) : List.Sorted pathLE (sortedDedup l) :=
  List.sorted_insertionSort pathLE _

theorem nodup_foldl_insertIfAbsent :
    ∀ (l acc : List String), acc.Nodup → (l.foldl insertIfAbsent acc).Nodup := by
  intro l
  induction l with
  | nil => intro acc h; exact h
  | cons x xs ih =>
    intro acc h
    simp only [List.foldl]
    apply ih
    unfold insertIfAbsent
    split
    · exact h
    · simp [List.nodup_append, h]
      assumption

theorem sortedDedup_nodup (l : List String) : (sortedDedup l).Nodup :=
  (List.perm_insertionSort pathLE _).nodup_iff.mpr
    (nodup_foldl_insertIfAbsent l [] List.nodup_nil)

/-- C9 (amended): with a non-empty include set, an existing target and
an available Pyright, the result's `checked_paths` and the path
arguments appended to the subprocess command line are both the
deduplicated candidate set sorted ascending in pathlib's `PurePath`
order — lexicographic over the `/`-separated component lists — which is
not raw-string order. -/
theorem C9_sorted_path_arguments (env : SysEnv) (params : PyrightCheckParams)
    (r : CheckResult) (g : String) (gs : List String)
    (hinc : params.«include» = some (g :: gs))
    (hex : env.pathExists (pathStr params.target) = true)
    (hav : env.argvPrefix.isEmpty = false)
    (h : run_check env params = some r) :
    r.checked_paths = sortedDedup (candidatePaths env params) ∧
    r.command = env.argvPrefix ++ ["--outputjson"] ++ params.extra_args.getD [] ++
      sortedDedup (candidatePaths env params) ∧
    List.Sorted pathLE r.checked_paths ∧
    r.checked_paths.Nodup := by
  simp only [run_check, hex, hinc, hav, listTruthy, Bool.not_true, Bool.false_eq_true,
    if_false, if_true, ite_false, ite_true] at h
  split at h
  · cases h
    exact ⟨rfl, rfl, sortedDedup_sorted _, sortedDedup_nodup _⟩
  · cases h
    exact ⟨rfl, rfl, sortedDedup_sorted _, sortedDedup_nodup _⟩
  · split at h
    · cases h
      exact ⟨rfl, rfl, sortedDedup_sorted _, sortedDedup_nodup _⟩
    · split at h
      · split at h
        · exact Option.noConfusion h
        · cases h
          exact ⟨rfl, rfl, sortedDedup_sorted _, sortedDedup_nodup _⟩
      · exact Option.noConfusion h

/-- `okEnv` whose glob enumeration finds the single file `a.py`. -/
def c9Env : SysEnv := { okEnv with glob := fun _ _ => ["a.py"] }

/-- The parameters of the include-glob witness run. -/
def c9Params : PyrightCheckParams := { target := "proj", «include» := some ["*.py"] }

/-- The result of the include-glob witness run. -/
def c9Run : CheckResult :=
  { ok := true
    fail_reason := none
    command := ["/usr/bin/pyright", "--outputjson", "/w/a.py"]
    exit_code := 0
    summary := { files_analyzed := 1, error_count := 1, warning_count := 0,
                 information_count := 0, time_sec := 1 }
    diagnostics := []
    pyright_version := "1.1.405"
    analyzed_root := "/w/proj"
    checked_paths := ["/w/a.py"]
    venv_path := "/venv" }

set_option maxRecDepth 100000 in
theorem C9_sorted_path_arguments_witness :
    c9Params.«include» = some ("*.py" :: []) ∧
    c9Env.pathExists (pathStr c9Params.target) = true ∧
    c9Env.argvPrefix.isEmpty = false ∧
    run_check c9Env c9Params = some c9Run ∧
    (c9Run.checked_paths = sortedDedup (candidatePaths c9Env c9Params) ∧
     c9Run.command = c9Env.argvPrefix ++ ["--outputjson"] ++ c9Params.extra_args.getD [] ++
       sortedDedup (candidatePaths c9Env c9Params) ∧
     List.Sorted pathLE c9Run.checked_paths ∧
     c9Run.checked_paths.Nodup) :=
  ⟨rfl, rfl, rfl, rfl,
   C9_sorted_path_arguments c9Env c9Params c9Run "*.py" [] rfl rfl rfl rfl⟩

/-- C8 (amended): with no include globs, the expansion helper starts from
the singleton resolved root but still applies the exclude filter, which
can drop the root itself; `run_check` however ignores the helper's output
when include globs are absent and uses the resolved target as the sole
checked path and the sole subprocess path argument, so excludes have no
effect there. -/
theorem C8_expansion_without_includes :
    (∀ (env : SysEnv) (root : String) (excl : Option (List String)),
      iter_included_paths env root none excl =
        (if listTruthy excl then
          (if excludedBy env (resolvePath env.cwdPath root) (excl.getD [])
              (resolvePath env.cwdPath root) then ([] : List String)
           else [resolvePath env.cwdPath root])
         else [resolvePath env.cwdPath root])) ∧
    (∀ (env : SysEnv) (params : PyrightCheckParams) (r : CheckResult),
      params.«include» = none →
      env.pathExists (pathStr params.target) = true →
      run_check env params = some r →
      r.checked_paths = [resolvePath env.cwdPath (pathStr params.target)] ∧
      (r.command = [] ∨
       r.command = env.argvPrefix ++ ["--outputjson"] ++ params.extra_args.getD [] ++
         [resolvePath env.cwdPath (pathStr params.target)])) := by
  constructor
  · intro env root excl
    simp only [iter_included_paths]
    have h0 : listTruthy none = false := rfl
    rw [h0]
    simp only [Bool.false_eq_true, if_false]
    cases hlt : listTruthy excl
    · simp
    · simp only [if_true]
      cases hx : excludedBy env (resolvePath env.cwdPath root) (excl.getD [])
          (resolvePath env.cwdPath root)
      · simp [List.filter, hx]
      · simp [List.filter, hx]
  · intro env params r hinc hex h
    simp only [run_check, hinc, hex, listTruthy, Bool.not_true, Bool.false_eq_true,
      if_false, if_true, ite_false, ite_true] at h
    split at h
    · cases h; exact ⟨rfl, Or.inl rfl⟩
    · split at h
      · cases h; exact ⟨rfl, Or.inr rfl⟩
      · cases h; exact ⟨rfl, Or.inr rfl⟩
      · split at h
        · cases h; exact ⟨rfl, Or.inr rfl⟩
        · split at h
          · split at h
            · exact Option.noConfusion h
            · cases h; exact ⟨rfl, Or.inr rfl⟩
          · exact Option.noConfusion h

/-- C8, counterexample to the claim as stated: expanding root `/a/pkg`
with no include globs but exclude set `["pkg"]` yields the empty list,
not the singleton root — the exclude filter also runs without includes
and drops the root whose name matches. -/
theorem C8_expansion_counterexample :
    iter_included_paths okEnv "/a/pkg" none (some ["pkg"]) = [] ∧
    iter_included_paths okEnv "/a/pkg" none (some ["pkg"]) ≠
      [resolvePath okEnv.cwdPath "/a/pkg"] := by
  have hf1 : fnmatch "pkg" "pkg" = true := by
    simp [fnmatch, globMatch.eq_def, parseClass, parseClassItems, classRest]
  have hrel : relativeTo (resolvePath okEnv.cwdPath "/a/pkg") "/a/pkg" = some "." := rfl
  have hnm : pathName "/a/pkg" = "pkg" := rfl
  have hx : excludedBy okEnv "/a/pkg" ["pkg"] "/a/pkg" = true := by
    simp only [excludedBy, hrel, hnm, List.any_cons, List.any_nil, hf1]
    simp
  have hresolve : resolvePath okEnv.cwdPath "/a/pkg" = "/a/pkg" := rfl
  have h : iter_included_paths okEnv "/a/pkg" none (some ["pkg"]) = [] := by
    simp only [iter_included_paths]
    rw [show listTruthy none = false from rfl]
    rw [show listTruthy (some ["pkg"]) = true from rfl]
    simp only [Bool.false_eq_true, if_false, if_true, Option.getD_some]
    simp [List.filter, hresolve, hx]
  exact ⟨h, by rw [h]; simp⟩

set_option maxRecDepth 100000 in
theorem C8_expansion_without_includes_witness :
    ({} : PyrightCheckParams).«include» = none ∧
    okEnv.pathExists (pathStr ({} : PyrightCheckParams).target) = true ∧
    run_check okEnv {} = some okRun ∧
    (okRun.checked_paths = [resolvePath okEnv.cwdPath (pathStr ({} : PyrightCheckParams).target)] ∧
     (okRun.command = [] ∨
      okRun.command = okEnv.argvPrefix ++ ["--outputjson"] ++
        ({} : PyrightCheckParams).extra_args.getD [] ++
        [resolvePath okEnv.cwdPath (pathStr ({} : PyrightCheckParams).target)])) :=
  ⟨rfl, rfl, rfl, C8_expansion_without_includes.2 okEnv {} okRun rfl rfl rfl⟩

/-- Modelled from the claim's words, for comparison with the
implemented order: "sorted lexicographically ascending by their string
form" — `a` precedes or equals `b` when the raw string `b` does not
compare strictly below `a` code-point-lexicographically. -/
def stringFormLE (a b : String) : Bool := !(strLtB b a)

/-- `okEnv` whose glob enumeration finds the file `a-b.py` and, beside
it, `x.py` inside the directory `a`. -/
def c9bEnv : SysEnv := { okEnv with glob := fun _ _ => ["a-b.py", "a/x.py"] }

/-- The result of checking `proj` with include `["*.py"]` against
`c9bEnv`. -/
def c9bRun : CheckResult :=
  { ok := true
    fail_reason := none
    command := ["/usr/bin/pyright", "--outputjson", "/w/a/x.py", "/w/a-b.py"]
    exit_code := 0
    summary := { files_analyzed := 1, error_count := 1, warning_count := 0,
                 information_count := 0, time_sec := 1 }
    diagnostics := []
    pyright_version := "1.1.405"
    analyzed_root := "/w/proj"
    checked_paths := ["/w/a/x.py", "/w/a-b.py"]
    venv_path := "/venv" }

set_option maxRecDepth 100000 in
/-- C9, counterexample to the claim as stated: with candidates
`/w/a-b.py` and `/w/a/x.py`, `sorted(set(...))` on `Path` objects puts
`/w/a/x.py` first (component `"a"` precedes `"a-b.py"`), so the
`checked_paths` field and the subprocess path arguments are NOT sorted
ascending by their string form — as raw strings `/w/a-b.py` precedes
`/w/a/x.py`, since `-` (0x2D) precedes `/` (0x2F). -/
theorem C9_string_order_counterexample :
    run_check c9bEnv c9Params = some c9bRun ∧
    c9bRun.checked_paths = ["/w/a/x.py", "/w/a-b.py"] ∧
    c9bRun.command = ["/usr/bin/pyright", "--outputjson", "/w/a/x.py", "/w/a-b.py"] ∧
    stringFormLE "/w/a/x.py" "/w/a-b.py" = false ∧
    ¬ List.Pairwise (fun a b => stringFormLE a b = true) c9bRun.checked_paths := by
  refine ⟨rfl, rfl, rfl, by decide, ?_⟩
  intro h
  have := List.rel_of_pairwise_cons h (List.mem_singleton.mpr rfl)
  rw [show stringFormLE "/w/a/x.py" "/w/a-b.py" = false by decide] at this
  exact absurd this (by simp)

end PyrightMCP
